import Mathlib

/-!
Verification of the Loggy web-server backend
(`loggy/lib/server_backend.py`), a shallow embedding in Lean 4.

Strings captured from the analyzer process are modelled as `List Char`
(Python `str`); the few regular expressions the backend uses are embedded
as explicit deterministic scanners whose behaviour matches the Python
`re` engine on the pattern in question (greedy character-class runs,
leftmost match for `re.search`, non-overlapping left-to-right matches for
`re.finditer`, scan-and-delete for `re.sub`).  External effects
(the analyzer subprocess, `grep`, the file system) are modelled as
explicit parameters.
-/

/-! ### Python character classes (ASCII range, by code point) -/

/-- Python regex `\s` and `str.strip` whitespace, ASCII part:
space, tab, newline, carriage return, vertical tab, form feed. -/
def pyIsSpace (c : Char) : Bool :=
  c.toNat == 32 || c.toNat == 9 || c.toNat == 10 || c.toNat == 13 ||
  c.toNat == 11 || c.toNat == 12

/-- Python regex `\d`, ASCII: the characters 0-9. -/
def pyIsDigit (c : Char) : Bool :=
  48 ≤ c.toNat && c.toNat ≤ 57

/-- Python `str.strip()`: drop leading and trailing whitespace. -/
def pyStrip (l : List Char) : List Char :=
  ((l.dropWhile pyIsSpace).reverse.dropWhile pyIsSpace).reverse

/-- Python `str.upper()` for the ASCII range, as a per-character map. -/
def pyUpper (s : String) : String := ⟨s.data.map Char.toUpper⟩

/-- Python `str.split(sep)` for a one-character separator.
`split` of the empty string yields `[""]`, like Python. -/
def splitOnChar (sep : Char) : List Char → List (List Char)
  | [] => [[]]
  | c :: rest =>
    match splitOnChar sep rest with
    | [] => [[c]]
    | h :: t => if c == sep then [] :: h :: t else (c :: h) :: t

/-- Python `lit in hay` helper: `sub` occurs as a prefix of `hay`. -/
def listStartsWith : List Char → List Char → Bool
  | _, [] => true
  | [], _ :: _ => false
  | h :: hs, p :: ps => h == p && listStartsWith hs ps

/-- Python `sub in hay` substring test (empty `sub` is always contained). -/
def listContains (hay sub : List Char) : Bool :=
  if listStartsWith hay sub then true
  else
    match hay with
    | [] => false
    | _ :: t => listContains t sub

/-- Match a literal: if `lit` is a prefix of the input, return the rest. -/
def stripLit : List Char → List Char → Option (List Char)
  | [], cs => some cs
  | _ :: _, [] => none
  | l :: ls, c :: cs => if l == c then stripLit ls cs else none

/-! ### strip_ansi (server_backend.py lines 89-92)

`strip_ansi` applies two `re.sub` deletions in order:
first `\x1b\[[0-9;]*[a-zA-Z]` (ANSI escape sequences), then the
single-character class `[\x00-\x08\x0b\x0c\x0e-\x1f\x7f]`. -/

/-- The ESC character `\x1b`. -/
def escChar : Char := Char.ofNat 27

/-- Characters allowed in the body of an ANSI sequence: `[0-9;]`. -/
def isAnsiBody (c : Char) : Bool :=
  (48 ≤ c.toNat && c.toNat ≤ 57) || c.toNat == 59

/-- The regex class `[a-zA-Z]`. -/
def isAsciiLetter (c : Char) : Bool :=
  (97 ≤ c.toNat && c.toNat ≤ 122) || (65 ≤ c.toNat && c.toNat ≤ 90)

/-- After an ESC, try to match `\[[0-9;]*[a-zA-Z]`; on success return the
input that follows the matched sequence. -/
def ansiTail (cs : List Char) : Option (List Char) :=
  match cs with
  | c :: r =>
    if c == '[' then
      match r.dropWhile isAnsiBody with
      | d :: rest => if isAsciiLetter d then some rest else none
      | [] => none
    else none
  | [] => none

/-- One pass of `re.sub(r'\x1b\[[0-9;]*[a-zA-Z]', '', s)`: scan left to
right, delete each non-overlapping match, keep everything else.  Fuelled
recursion; every match consumes at least one character, so fuel equal to
the input length is enough, and at fuel 0 the input is returned unchanged
(it is empty whenever the function is entered with enough fuel). -/
def subAnsiF : Nat → List Char → List Char
  | 0, cs => cs
  | fuel + 1, cs =>
    match cs with
    | [] => []
    | c :: rest =>
      if c == escChar then
        match ansiTail rest with
        | some rest2 => subAnsiF fuel rest2
        | none => c :: subAnsiF fuel rest
      else c :: subAnsiF fuel rest

/-- Deletion of all ANSI escape sequences (first `re.sub` of `strip_ansi`). -/
def subAnsi (cs : List Char) : List Char := subAnsiF cs.length cs

/-- The character class `[\x00-\x08\x0b\x0c\x0e-\x1f\x7f]` deleted by the
second `re.sub` of `strip_ansi`.  Note that it keeps tab (9), newline (10)
and carriage return (13). -/
def isStrippedCtrl (c : Char) : Bool :=
  c.toNat ≤ 8 || c.toNat == 11 || c.toNat == 12 ||
  (14 ≤ c.toNat && c.toNat ≤ 31) || c.toNat == 127

/-- `strip_ansi` (lines 89-92): remove ANSI escape sequences, then remove
the control characters of `isStrippedCtrl`. -/
def strip_ansi (cs : List Char) : List Char :=
  (subAnsi cs).filter (fun c => !(isStrippedCtrl c))

/-- `strip_ansi` lifted to `String`, as used on captured process output. -/
def stripAnsiStr (s : String) : String := ⟨strip_ansi s.data⟩

/-! ### run_analyzer (server_backend.py lines 76-87)

The analyzer subprocess is an external collaborator; one invocation is
modelled by a `RunOutcome`: either `subprocess.run` returns normally with
a return code and decoded stdout/stderr, or it raises
`subprocess.TimeoutExpired`, or launching raises some other exception
carrying a message. -/

/-- Outcome of the underlying `subprocess.run` call. -/
inductive RunOutcome where
  | completed (returncode : Int) (stdout stderr : String)
  | timedOut
  | failed (msg : String)
deriving DecidableEq

/-- `run_analyzer` (lines 76-87): on normal completion pass the process
results through; on `TimeoutExpired` return `(124, "", "Timeout after Ns")`;
on any other exception return `(1, "", str(e))`. -/
def run_analyzer (o : RunOutcome) (timeout : Nat) : Int × String × String :=
  match o with
  | .completed rc out err => (rc, out, err)
  | .timedOut => (124, "", "Timeout after " ++ toString timeout ++ "s")
  | .failed e => (1, "", e)

/-! ### search_logs (server_backend.py lines 122-151)

The parsed-logs directory is modelled as `Option (List String)`:
`none` when `os.path.isdir(parsed_dir)` is false, otherwise the list of
`*.parsed` file names found by `glob` (in unspecified order; the code
sorts them).  The external `grep -i -n pattern file` subprocess is a
parameter `grep : String -> String -> Option String` giving its stdout
for a pattern and file, with `none` standing for the raised exception
swallowed by the bare `except: pass` (grep finding no match is
`some ""`, since that is not an exception). -/

/-- One search hit: the placeholder hit of line 129 has no `file` key,
ordinary hits (line 146) carry the file name. -/
structure Hit where
  file : Option String
  line : String
deriving DecidableEq

/-- The severity map of lines 132-134: `sev_map.get(severity.upper(), "")`. -/
def sevMapGet (s : String) : String :=
  if s = "E" then "|E|"
  else if s = "W" then "|W|"
  else if s = "I" then "|I|"
  else if s = "C" then "|C|"
  else if s = "N" then "|N|"
  else ""

/-- Inner loop of `search_logs` (lines 139-148) over the output lines of
one grep invocation.  Returns the accumulated results and a flag telling
whether the `len(results) >= max_results` early return fired. -/
def procLines (severity sevStr component : String) (fbase : String)
    (maxResults : Int) : List (List Char) → List Hit → List Hit × Bool
  | [], acc => (acc, false)
  | line :: ls, acc =>
    if line.isEmpty then procLines severity sevStr component fbase maxResults ls acc
    else if (!(severity == "")) && (!(sevStr == "")) && !(listContains line sevStr.data) then
      procLines severity sevStr component fbase maxResults ls acc
    else if (!(component == "")) &&
        !(listContains (line.map Char.toLower) (component.data.map Char.toLower)) then
      procLines severity sevStr component fbase maxResults ls acc
    else
      let acc2 := acc ++ [{ file := some fbase, line := ⟨line.take 300⟩ }]
      if maxResults ≤ (acc2.length : Int) then (acc2, true)
      else procLines severity sevStr component fbase maxResults ls acc2

/-- Outer loop of `search_logs` (lines 135-150) over the sorted file list. -/
def procFiles (grep : String → String → Option String)
    (pattern severity sevStr component : String) (maxResults : Int) :
    List String → List Hit → List Hit
  | [], acc => acc
  | f :: rest, acc =>
    match grep pattern f with
    | none => procFiles grep pattern severity sevStr component maxResults rest acc
    | some out =>
      let lines := splitOnChar '\n' (pyStrip out.data)
      match procLines severity sevStr component f maxResults lines acc with
      | (acc2, true) => acc2
      | (acc2, false) => procFiles grep pattern severity sevStr component maxResults rest acc2

/-- `search_logs` (lines 122-151).  `sessionExists` models the
`sessions.get(sid)` lookup; `after` and `before` are accepted and, as in
the source, never used. -/
def search_logs (grep : String → String → Option String) (sessionExists : Bool)
    (parsedDir : Option (List String))
    (pattern severity component after before : String) (maxResults : Int) : List Hit :=
  if sessionExists then
    match parsedDir with
    | none => [{ file := none, line := "Logs not parsed yet — run analysis first" }]
    | some files =>
      let sevStr := if severity = "" then "" else sevMapGet (pyUpper severity)
      procFiles grep pattern severity sevStr component maxResults
        (List.insertionSort (fun a b : String => a ≤ b) files) []
  else []

/-! ### parse_session_results (server_backend.py lines 95-119)

The function derives structured findings from the session's captured
stdout.  Modelled fields: the issues list (lines 106-110) and the health
record (lines 111-115).  The reports enumeration, device extraction and
the constant empty fields of the result dictionary are not needed by any
claim and are left out.

Regexes are embedded as position matchers.  A matcher takes the input
suffix that starts at the candidate position and returns the extracted
groups (and, for `finditer`, the suffix that follows the match). -/

/-- One extracted issue: severity keyword and stripped title. -/
structure Issue where
  severity : String
  title : String
deriving DecidableEq

/-- Extracted health record: `{"score": int(...), "grade": ...}`. -/
structure HealthRec where
  score : Nat
  grade : Char
deriving DecidableEq

/-- Decimal value of a digit run, as Python `int` on a digit string. -/
def digitsVal (ds : List Char) : Nat :=
  ds.foldl (fun a c => 10 * a + (c.toNat - 48)) 0

/-- `re.search`: try the matcher at each position from the left, first
success wins (positions run to the end of the string inclusive). -/
def reSearch (m : List Char → Option α) : List Char → Option α
  | [] => m []
  | c :: t =>
    match m (c :: t) with
    | some r => some r
    | none => reSearch m t

/-- `re.finditer`: all non-overlapping matches, scanning left to right and
continuing after the end of each match.  Fuelled; every match of the
patterns used here consumes at least one character, so fuel equal to the
input length suffices (when the fuel runs out the input is empty and no
pattern of this file matches the empty string). -/
def findAllF (m : List Char → Option (α × List Char)) : Nat → List Char → List α
  | 0, _ => []
  | fuel + 1, cs =>
    match m cs with
    | some (r, rest) => r :: findAllF m fuel rest
    | none =>
      match cs with
      | [] => []
      | _ :: t => findAllF m fuel t

/-- All matches of a pattern in a string, as `re.finditer`. -/
def reFinditer (m : List Char → Option (α × List Char)) (cs : List Char) : List α :=
  findAllF m cs.length cs

/-- The alternation `(CRITICAL|HIGH|MEDIUM|LOW)` (no keyword is a prefix
of another, so first-alternative-wins equals any-alternative-wins). -/
def sevKeywords : List String := ["CRITICAL", "HIGH", "MEDIUM", "LOW"]

/-- Match one of a list of literal alternatives at the head of the input. -/
def matchKw : List String → List Char → Option (String × List Char)
  | [], _ => none
  | k :: ks, cs =>
    match stripLit k.data cs with
    | some r => some (k, r)
    | none => matchKw ks cs

/-- Suffix of `w` that starts at the last character of `w` that is not a
newline, if any. -/
def lastNonNlSuffix : List Char → Option (List Char)
  | [] => none
  | c :: rest =>
    match lastNonNlSuffix rest with
    | some b => some b
    | none => if c == '\n' then none else some (c :: rest)

/-- The regex tail `\s+(.+?)(?:\n|$)` shared by both issue patterns, with
the Python backtracking behaviour: `\s+` is greedy; `.` does not match a
newline; `(.+?)` is lazy, so the capture runs to the end of the current
line; when the whitespace run reaches the end of the string the engine
backtracks into it and captures from its last non-newline character.
Returns the captured group and the input following the match (the match
consumes a trailing newline when one terminates it). -/
def titleSuffix (cs : List Char) : Option (List Char × List Char) :=
  let ws := cs.takeWhile pyIsSpace
  if ws.isEmpty then none
  else
    match cs.drop ws.length with
    | c :: r =>
      let t := (c :: r).takeWhile (fun x => !(x == '\n'))
      some (t, ((c :: r).drop t.length).tail)
    | [] =>
      match lastNonNlSuffix (ws.drop 1) with
      | some b =>
        let t := b.takeWhile (fun x => !(x == '\n'))
        some (t, (b.drop t.length).tail)
      | none => none

/-- Position matcher for the primary issue pattern
`#\d+\s+(CRITICAL|HIGH|MEDIUM|LOW)\s+(.+?)(?:\n|$)` (line 106).
The title group is stripped as in line 107. -/
def primAt (cs : List Char) : Option (Issue × List Char) :=
  match cs with
  | '#' :: r1 =>
    let ds := r1.takeWhile pyIsDigit
    if ds.isEmpty then none
    else
      let r2 := r1.drop ds.length
      let ws := r2.takeWhile pyIsSpace
      if ws.isEmpty then none
      else
        match matchKw sevKeywords (r2.drop ws.length) with
        | some (sev, r3) =>
          match titleSuffix r3 with
          | some (t, rest) => some ({ severity := sev, title := ⟨pyStrip t⟩ }, rest)
          | none => none
        | none => none
  | _ => none

/-- Position matcher for the fallback issue pattern
`\[(CRITICAL|HIGH|MEDIUM|LOW)\]\s+(.+?)(?:\n|$)` (line 109). -/
def bracketAt (cs : List Char) : Option (Issue × List Char) :=
  match cs with
  | '[' :: r1 =>
    match matchKw sevKeywords r1 with
    | some (sev, r2) =>
      match r2 with
      | ']' :: r3 =>
        match titleSuffix r3 with
        | some (t, rest) => some ({ severity := sev, title := ⟨pyStrip t⟩ }, rest)
        | none => none
      | _ => none
    | none => none
  | _ => none

/-- Issue extraction (lines 106-110): collect all primary-pattern matches;
only if there are none, collect the bracketed-pattern matches. -/
def parse_issues (stdout : List Char) : List Issue :=
  let prim := reFinditer primAt stdout
  if prim.isEmpty then reFinditer bracketAt stdout else prim

/-- The literal `Health Score:` of both health regexes, as characters. -/
def litHealthScore : List Char :=
  ['H', 'e', 'a', 'l', 't', 'h', ' ', 'S', 'c', 'o', 'r', 'e', ':']

/-- The literal `100`. -/
def lit100 : List Char := ['1', '0', '0']

/-- The literal `/100` of the second health regex. -/
def litSlash100 : List Char := ['/', '1', '0', '0']

/-- The literal `Grade:`. -/
def litGrade : List Char := ['G', 'r', 'a', 'd', 'e', ':']

/-- Position matcher for the first health layout
`Health Score:\s*(\d+)\s*/\s*100\s*Grade:\s*([A-F])` (line 111). -/
def health1At (cs : List Char) : Option HealthRec :=
  match stripLit litHealthScore cs with
  | none => none
  | some r1 =>
    let r2 := r1.dropWhile pyIsSpace
    let ds := r2.takeWhile pyIsDigit
    if ds.isEmpty then none
    else
      match (r2.drop ds.length).dropWhile pyIsSpace with
      | '/' :: r4 =>
        match stripLit lit100 (r4.dropWhile pyIsSpace) with
        | none => none
        | some r6 =>
          match stripLit litGrade (r6.dropWhile pyIsSpace) with
          | none => none
          | some r8 =>
            match r8.dropWhile pyIsSpace with
            | g :: _ =>
              if 65 ≤ g.toNat && g.toNat ≤ 70 then some { score := digitsVal ds, grade := g }
              else none
            | [] => none
      | _ => none

/-- Position matcher for the second health layout
`Health Score:\s*(\d+)/100\s*\(([A-F])\)` (line 113). -/
def health2At (cs : List Char) : Option HealthRec :=
  match stripLit litHealthScore cs with
  | none => none
  | some r1 =>
    let r2 := r1.dropWhile pyIsSpace
    let ds := r2.takeWhile pyIsDigit
    if ds.isEmpty then none
    else
      match stripLit litSlash100 (r2.drop ds.length) with
      | none => none
      | some r3 =>
        match r3.dropWhile pyIsSpace with
        | '(' :: g :: ')' :: _ =>
          if 65 ≤ g.toNat && g.toNat ≤ 70 then some { score := digitsVal ds, grade := g }
          else none
        | _ => none

/-- Health extraction (lines 111-115): search the first layout, and only
if it is absent search the second; no match leaves the field unset. -/
def parse_health (stdout : List Char) : Option HealthRec :=
  match reSearch health1At stdout with
  | some h => some h
  | none => reSearch health2At stdout

/-- The modelled slice of the `parse_session_results` dictionary. -/
structure SessionResults where
  issues : List Issue
  health : Option HealthRec
deriving DecidableEq

/-- `parse_session_results` (lines 95-119), restricted to the fields the
claims are about, as a function of the session's captured stdout. -/
def parse_session_results (stdout : List Char) : SessionResults :=
  { issues := parse_issues stdout, health := parse_health stdout }

/-! ### load_signatures (server_backend.py lines 175-222)

Both knowledge files are modelled as optional line lists (`none` when
`os.path.isfile` is false).  Entries carry their origin in the
constructor, mirroring the `"source"` tag. -/

/-- A normalized signature entry.  `fromSignatures` rows come from the
fixed-column file (lines 184-191); `fromRegistry` rows from the
header-driven file (lines 208-221) with the extra fields. -/
inductive SigEntry where
  | fromSignatures (pattern component severity title root_cause fix kb_url : String)
  | fromRegistry (pattern component severity title root_cause fix kb_url
      module errorType onSiteRequired : String)
deriving DecidableEq

/-- Does the stripped line start with the comment marker? -/
def pyStartsHash : List Char → Bool
  | '#' :: _ => true
  | _ => false

/-- Loop over the fixed-schema signatures file (lines 178-191): skip blank
and comment lines, keep rows with at least 6 tab-separated columns. -/
def sigGo : List String → List SigEntry
  | [] => []
  | l :: rest =>
    let s := pyStrip l.data
    if s.isEmpty || pyStartsHash s then sigGo rest
    else
      let parts := (splitOnChar '\t' s).map (fun cs => (⟨cs⟩ : String))
      (if 6 ≤ parts.length then
        [SigEntry.fromSignatures (parts.getD 0 "") (parts.getD 1 "") (parts.getD 2 "")
          (parts.getD 3 "") (parts.getD 4 "") (parts.getD 5 "") (parts.getD 6 "")]
      else []) ++ sigGo rest

/-- The header's column map: Python's dict comprehension
`{name.strip(): idx for idx, name in enumerate(parts)}`; on duplicate
header names the later index wins, hence lookup scans from the right. -/
def buildColMap (parts : List String) : List (String × Nat) :=
  parts.enum.map (fun p => ((⟨pyStrip p.2.data⟩ : String), p.1))

/-- `col_map.get(name)` with Python's later-entry-wins dict semantics. -/
def colMapLookup (m : List (String × Nat)) (name : String) : Option Nat :=
  (m.reverse.find? (fun p => p.1 == name)).map (fun p => p.2)

/-- The row accessor `col(name, default)` (lines 203-207): the default is
returned when the column name is absent from the header or its index
falls beyond the row's length. -/
def colGet (m : List (String × Nat)) (parts : List String)
    (name default : String) : String :=
  match colMapLookup m name with
  | some idx => parts.getD idx default
  | none => default

/-- Build one registry entry (lines 209-221). -/
def mkRegEntry (m : List (String × Nat)) (parts : List String) : SigEntry :=
  SigEntry.fromRegistry
    (colGet m parts "name" "")
    (colGet m parts "module" "")
    (colGet m parts "severity" "MEDIUM")
    (colGet m parts "description" "")
    (colGet m parts "description" "")
    (colGet m parts "troubleshootingSteps" "")
    ""
    (colGet m parts "module" "")
    (colGet m parts "errorType" "")
    (colGet m parts "onSiteServiceRequired" "false")

/-- Loop over the header-driven registry file (lines 193-221): skip blank
and comment lines; the first remaining line becomes the column map; every
later row with at least 4 columns yields an entry, shorter rows are
silently skipped. -/
def regGo : List String → Option (List (String × Nat)) → List SigEntry
  | [], _ => []
  | l :: rest, cm =>
    let s := pyStrip l.data
    if s.isEmpty || pyStartsHash s then regGo rest cm
    else
      let parts := (splitOnChar '\t' s).map (fun cs => (⟨cs⟩ : String))
      match cm with
      | none => regGo rest (some (buildColMap parts))
      | some m =>
        (if 4 ≤ parts.length then [mkRegEntry m parts] else []) ++ regGo rest (some m)

/-- `load_signatures` (lines 175-222): fixed-schema entries followed by
registry entries, concatenated without deduplication. -/
def load_signatures (sigFile regFile : Option (List String)) : List SigEntry :=
  (match sigFile with
   | some ls => sigGo ls
   | none => []) ++
  (match regFile with
   | some ls => regGo ls none
   | none => [])

/-! ### The analyze route and the router boundary
(server_backend.py lines 313-397)

`do_POST` has no try/except: an exception raised while handling a request
(for instance `json.loads` on a malformed body, line 341) propagates out
of the handler.  The embedding returns `Except String r`: `Except.error`
is an exception escaping the router boundary, `Except.ok` an HTTP
response that was actually sent.  The request body passed to a JSON route
is therefore an `Except String AnalyzeReq`, `Except.error` standing for
the `json.JSONDecodeError` raised inside the handler. -/

/-- The fields `/api/analyze` reads from its JSON body (line 342-346),
with the `body.get` defaults already applied. -/
structure AnalyzeReq where
  session_id : String
  mode : String
  web : Bool
  mail : Bool
  tickets : Bool

/-- The JSON payload of a successful `/api/analyze` response (line 366). -/
structure AnalyzeResp where
  ok : Bool
  exit_code : Int
  output : String
  errors : String
  reports : List String
deriving DecidableEq

/-- Core of the `/api/analyze` handler after the session check
(lines 355-367), as a function of the analyzer's exit code, raw output
and the reports directory listing taken after the run.  Returns the
response payload together with the sequence of states assigned to the
session: "analyzing", then "done" or "error" from the exit code, then
"done" again whenever the reports list is non-empty. -/
def analyzeRun (rc : Int) (out err : String) (reports : List String) :
    AnalyzeResp × List String :=
  let stateAfterRun := if rc = 0 then "done" else "error"
  let okFlag := decide (0 < reports.length)
  let trace := ["analyzing", stateAfterRun] ++ (if okFlag then ["done"] else [])
  ({ ok := okFlag, exit_code := rc, output := stripAnsiStr out,
     errors := stripAnsiStr err, reports := reports }, trace)

/-- A response sent by `do_POST` on the modelled routes. -/
inductive PostReply where
  | analyzeReply (r : AnalyzeResp) (trace : List String)
  | errReply (code : Nat) (msg : String)
deriving DecidableEq

/-- `do_POST` (lines 313-397) restricted to the `/api/analyze` route and
the final not-found branch; the upload, compare and fleet branches parse
their JSON bodies in the same unguarded way.  There is no try/except
anywhere in the handler, so a body-parse exception is returned as
`Except.error`, not as a JSON error response. -/
def do_POST (path : String) (body : Except String AnalyzeReq)
    (sessionIds : List String) (rc : Int) (out err : String)
    (reportsAfter : List String) : Except String PostReply :=
  if path = "/api/analyze" then
    match body with
    | .error e => .error e
    | .ok req =>
      if req.session_id ∈ sessionIds then
        let (resp, trace) := analyzeRun rc out err reportsAfter
        .ok (.analyzeReply resp trace)
      else .ok (.errReply 404 "Session not found")
  else .ok (.errReply 404 "Not found")

/-! ### Concrete layouts and inputs used by the theorems below -/

/-- The first health layout of the spec, `Health Score: N/100 Grade: G`,
with the digit run `ds` standing for N. -/
def mkHealth1 (ds : List Char) (g : Char) : List Char :=
  litHealthScore ++
    (' ' :: (ds ++ ('/' :: '1' :: '0' :: '0' :: ' ' ::
      (litGrade ++ (' ' :: [g])))))

/-- The second health layout of the spec, `Health Score: N/100 (G)`. -/
def mkHealth2 (ds : List Char) (g : Char) : List Char :=
  litHealthScore ++
    (' ' :: (ds ++ ('/' :: '1' :: '0' :: '0' :: ' ' :: '(' :: g :: [')'])))

/-- A one-file grep stub used to evaluate `search_logs` on a concrete
directory. -/
def cexGrep : String → String → Option String :=
  fun _ f => if f = "a.parsed" then some "1:alpha" else none

/-! ### Helper lemmas -/

lemma subAnsiF_nil : ∀ f, subAnsiF f [] = []
  | 0 => rfl
  | _ + 1 => rfl


lemma ansiTail_sublist {cs r : List Char} (h : ansiTail cs = some r) :
    List.Sublist r cs := by
  unfold ansiTail at h
  split at h
  · rename_i c t
    split at h
    · split at h
      · rename_i d rest hb
        split at h
        · cases h
          have h1 : List.Sublist (d :: r) t := by
            rw [← hb]; exact List.dropWhile_sublist isAnsiBody
          exact ((List.sublist_cons_self d r).trans h1).trans
            (List.sublist_cons_self c t)
        · cases h
      · cases h
    · cases h
  · cases h

lemma subAnsiF_sublist : ∀ (f : Nat) (cs : List Char),
    List.Sublist (subAnsiF f cs) cs := by
  intro f
  induction f with
  | zero => intro cs; exact List.Sublist.refl cs
  | succ f ih =>
    intro cs
    cases cs with
    | nil => exact List.Sublist.refl []
    | cons c rest =>
      simp only [subAnsiF]
      by_cases hc : c == escChar
      · rw [if_pos hc]
        cases hat : ansiTail rest with
        | some rest2 =>
          exact ((ih rest2).trans (ansiTail_sublist hat)).trans
            (List.sublist_cons_self c rest)
        | none => exact List.Sublist.cons₂ c (ih rest)
      · rw [if_neg hc]
        exact List.Sublist.cons₂ c (ih rest)

lemma subAnsiF_no_esc : ∀ (f : Nat) (cs : List Char), escChar ∉ cs →
    subAnsiF f cs = cs := by
  intro f
  induction f with
  | zero => intro cs _; rfl
  | succ f ih =>
    intro cs h
    cases cs with
    | nil => rfl
    | cons c rest =>
      have hc : ¬(c == escChar) = true := by
        simp only [beq_iff_eq]
        intro hh
        exact h (hh ▸ List.mem_cons_self c rest)
      simp only [subAnsiF, if_neg hc]
      rw [ih rest (fun hm => h (List.mem_cons_of_mem c hm))]

lemma subAnsiF_stable : ∀ (f g : Nat) (cs : List Char),
    cs.length ≤ f → cs.length ≤ g → subAnsiF f cs = subAnsiF g cs := by
  intro f
  induction f with
  | zero =>
    intro g cs h _
    have : cs = [] := List.eq_nil_of_length_eq_zero (Nat.le_zero.mp h)
    subst this
    rw [subAnsiF_nil, subAnsiF_nil]
  | succ f ih =>
    intro g cs h hg
    cases cs with
    | nil => rw [subAnsiF_nil, subAnsiF_nil]
    | cons c rest =>
      cases g with
      | zero => simp at hg
      | succ g' =>
        simp only [List.length_cons, Nat.succ_le_succ_iff] at h hg
        simp only [subAnsiF]
        by_cases hc : c == escChar
        · rw [if_pos hc, if_pos hc]
          cases hat : ansiTail rest with
          | some rest2 =>
            have hlen : rest2.length ≤ rest.length :=
              (ansiTail_sublist hat).length_le
            exact ih g' rest2 (hlen.trans h) (hlen.trans hg)
          | none => rw [ih g' rest h hg]
        · rw [if_neg hc, if_neg hc, ih g' rest h hg]

lemma isAnsiBody_eq_false_of_letter (c : Char) (h : isAsciiLetter c = true) :
    isAnsiBody c = false := by
  simp only [isAsciiLetter, Bool.or_eq_true, Bool.and_eq_true, decide_eq_true_eq,
    beq_iff_eq] at h
  simp only [isAnsiBody, Bool.or_eq_false_iff, Bool.and_eq_false_iff,
    decide_eq_false_iff_not, beq_eq_false_iff_ne, ne_eq]
  omega

lemma subAnsiF_esc_step (f : Nat) (cs rest : List Char)
    (h : ansiTail cs = some rest) :
    subAnsiF (f + 1) (escChar :: cs) = subAnsiF f rest := by
  simp [subAnsiF, h]

lemma subAnsiF_append_no_esc : ∀ (pre cs : List Char) (f : Nat),
    (pre ++ cs).length ≤ f → escChar ∉ pre →
    subAnsiF f (pre ++ cs) = pre ++ subAnsiF cs.length cs := by
  intro pre
  induction pre with
  | nil =>
    intro cs f hf _
    simp only [List.nil_append] at hf ⊢
    exact subAnsiF_stable f cs.length cs hf (Nat.le_refl _)
  | cons c p ih =>
    intro cs f hf hesc
    cases f with
    | zero => simp at hf
    | succ f' =>
      have hf' : (p ++ cs).length ≤ f' := by
        simp only [List.cons_append, List.length_cons,
          Nat.succ_le_succ_iff] at hf
        exact hf
      have hc : ¬(c == escChar) = true := by
        simp only [beq_iff_eq]
        intro hh
        exact hesc (hh ▸ List.mem_cons_self c p)
      simp only [List.cons_append, subAnsiF, if_neg hc]
      rw [ih cs f' hf' (fun hm => hesc (List.mem_cons_of_mem c hm))]

/-! ### Claim C3 -/

/-- C3 (amended): `strip_ansi` removes ANSI escape sequences — an escape
sequence appearing after any ESC-free prefix is deleted wholesale, the
prefix and the remainder being processed as usual — and removes exactly
the control characters of the class `[\x00-\x08\x0b\x0c\x0e-\x1f\x7f]`
(so newline, tab and carriage return survive); every character it keeps
comes from the input in order, and on inputs with no ESC character the
result is exactly the input minus the stripped control characters.
Conjunct four applies to any occurrence of a sequence: peeling sequences
off left to right, it determines the result on every input. -/
theorem strip_ansi_spec :
    (∀ cs : List Char, List.Sublist (strip_ansi cs) cs) ∧
    (∀ (cs : List Char) (c : Char), c ∈ strip_ansi cs → isStrippedCtrl c = false) ∧
    (∀ cs : List Char, escChar ∉ cs →
      strip_ansi cs = cs.filter (fun c => !(isStrippedCtrl c))) ∧
    (∀ (pre body rest : List Char), escChar ∉ pre →
      (∀ c ∈ body, isAnsiBody c = true) →
      ∀ L : Char, isAsciiLetter L = true →
      strip_ansi (pre ++ (escChar :: '[' :: (body ++ L :: rest))) =
        pre.filter (fun c => !(isStrippedCtrl c)) ++ strip_ansi rest) := by
  refine ⟨?_, ?_, ?_, ?_⟩
  · intro cs
    exact (List.filter_sublist (subAnsi cs)).trans (subAnsiF_sublist cs.length cs)
  · intro cs c hc
    have h2 := (List.mem_filter.mp hc).2
    simpa using h2
  · intro cs h
    unfold strip_ansi subAnsi
    rw [subAnsiF_no_esc cs.length cs h]
  · intro pre body rest hpre hbody L hL
    have hdw : List.dropWhile isAnsiBody (body ++ L :: rest) = L :: rest := by
      rw [List.dropWhile_append_of_pos hbody, List.dropWhile_cons,
        isAnsiBody_eq_false_of_letter L hL]
      simp
    have htail : ansiTail ('[' :: (body ++ L :: rest)) = some rest := by
      simp only [ansiTail]
      rw [if_pos (by simp), hdw]
      show (if isAsciiLetter L = true then some rest else none) = some rest
      rw [if_pos hL]
    have h1 : subAnsi (pre ++ (escChar :: '[' :: (body ++ L :: rest))) =
        pre ++ subAnsi rest := by
      unfold subAnsi
      rw [subAnsiF_append_no_esc pre _ _ (Nat.le_refl _) hpre]
      congr 1
      rw [List.length_cons, subAnsiF_esc_step _ _ _ htail]
      exact subAnsiF_stable _ _ rest (ansiTail_sublist htail).length_le
        (Nat.le_refl _)
    unfold strip_ansi
    rw [h1, List.filter_append]

/-- C3 counterexample to the claim as stated: the carriage return
(code 13) is a non-printable control byte that is neither newline nor
tab, yet `strip_ansi` preserves it. -/
theorem strip_ansi_keeps_cr :
    strip_ansi [Char.ofNat 13] = [Char.ofNat 13] ∧
    (Char.ofNat 13).toNat < 32 ∧ Char.ofNat 13 ≠ '\n' ∧ Char.ofNat 13 ≠ '\t' := by
  decide

/-- C3 witness: the amended theorem applied at concrete inputs — an ANSI
color sequence in the middle of the input is removed while the text
around it is kept, and an ESC-free string keeps everything except the
stripped control characters. -/
theorem strip_ansi_spec_witness :
    strip_ansi (("a".data) ++
        (escChar :: '[' :: ((['3', '1'] : List Char) ++ 'm' :: ("b".data)))) =
      ("a".data).filter (fun c => !(isStrippedCtrl c)) ++ strip_ansi ("b".data) ∧
    strip_ansi ("a\tb\x07c\r\n".data) =
      ("a\tb\x07c\r\n".data).filter (fun c => !(isStrippedCtrl c)) := by
  constructor
  · exact strip_ansi_spec.2.2.2 ("a".data) ['3', '1'] ("b".data)
      (by decide) (by decide) 'm' (by decide)
  · exact strip_ansi_spec.2.2.1 ("a\tb\x07c\r\n".data) (by decide)

/-! ### Claim C4 -/

/-- C4 counterexample to the claim as stated: the timeout sentinel 124 is
not distinct from every real analyzer exit code — an analyzer run that
completes with exit code 124, empty stdout and the same message in stderr
produces a `run_analyzer` result identical to a timeout, so the sentinel
cannot be told apart from a real exit code. -/
theorem run_analyzer_sentinel_collision :
    run_analyzer (RunOutcome.completed 124 "" "Timeout after 120s") 120 =
      run_analyzer RunOutcome.timedOut 120 ∧
    (run_analyzer (RunOutcome.completed 124 "out" "err") 120).1 =
      (run_analyzer RunOutcome.timedOut 120).1 := by
  constructor
  · show (124, "", "Timeout after 120s") = (124, "", "Timeout after " ++ toString 120 ++ "s")
    rfl
  · rfl

/-- C4 (amended): on timeout `run_analyzer` returns the sentinel exit
code 124 — distinct from the success code 0 and from the launch-failure
code 1, though not from every exit code an analyzer could itself return —
with empty stdout and the descriptive message `Timeout after Ns` in
stderr; on launch failure it returns exit code 1 with the error text in
stderr and empty stdout. -/
theorem run_analyzer_outcomes (t : Nat) (e : String) :
    run_analyzer RunOutcome.timedOut t =
      (124, "", "Timeout after " ++ toString t ++ "s") ∧
    run_analyzer (RunOutcome.failed e) t = (1, "", e) ∧
    (124 : Int) ≠ 0 ∧ (124 : Int) ≠ 1 := by
  refine ⟨rfl, rfl, by decide, by decide⟩

/-! ### Claim C8 -/

/-- C8: for an existing session whose parsed-logs directory does not
exist, `search_logs` returns exactly the single explanatory placeholder
hit, for every pattern, severity, component, date-filter and cap value. -/
theorem search_logs_placeholder (grep : String → String → Option String)
    (pattern severity component after before : String) (maxResults : Int) :
    search_logs grep true none pattern severity component after before maxResults =
      [{ file := none, line := "Logs not parsed yet — run analysis first" }] ∧
    (search_logs grep true none pattern severity component after before
      maxResults).length = 1 :=
  ⟨rfl, rfl⟩

/-! ### Claim C9 -/

/-- C9: for an analyze request on an existing session the response's `ok`
flag is true exactly when the reports directory listing taken after the
run is non-empty, whatever the exit code; and whenever it is non-empty
the session's final state is "done" — in particular a non-zero exit code
first sets the state to "error" and the report check then overwrites it
with "done". -/
theorem analyze_ok_iff_reports (rc : Int) (out err : String)
    (reports : List String) :
    ((analyzeRun rc out err reports).1.ok = true ↔ reports ≠ []) ∧
    (reports ≠ [] →
      ((analyzeRun rc out err reports).2).getLast? = some "done") ∧
    (rc ≠ 0 → reports ≠ [] →
      (analyzeRun rc out err reports).2 = ["analyzing", "error", "done"]) := by
  refine ⟨?_, ?_, ?_⟩
  · simp only [analyzeRun, decide_eq_true_eq]
    constructor
    · intro h
      exact List.ne_nil_of_length_pos h
    · intro h
      exact List.length_pos.mpr h
  · intro h
    have hl : (0 < reports.length) := List.length_pos.mpr h
    simp [analyzeRun, hl]
  · intro hrc h
    have hl : (0 < reports.length) := List.length_pos.mpr h
    simp [analyzeRun, hl, hrc]

/-- C9 witness: a failing exit code together with one report file yields
`ok = true` and the state trace "analyzing", "error", "done". -/
theorem analyze_ok_iff_reports_witness :
    (analyzeRun 2 "" "" ["summary.txt"]).1.ok = true ∧
    (analyzeRun 2 "" "" ["summary.txt"]).2 = ["analyzing", "error", "done"] :=
  ⟨(analyze_ok_iff_reports 2 "" "" ["summary.txt"]).1.mpr (by decide),
   (analyze_ok_iff_reports 2 "" "" ["summary.txt"]).2.2 (by decide) (by decide)⟩

/-! ### Claim C5 -/

/-- C5: the claim fails on the code — `do_POST` has no try/except at the
router boundary, so the `json.JSONDecodeError` raised by `json.loads` on
a malformed `/api/analyze` body escapes the handler as an uncaught
exception instead of being converted into a JSON error response. -/
theorem do_POST_unhandled_json_error :
    do_POST "/api/analyze" (Except.error "Expecting value: line 1 column 1 (char 0)")
      [] 0 "" "" [] =
      Except.error "Expecting value: line 1 column 1 (char 0)" := rfl

/-! ### Claim C1 -/

/-- C1: the bracketed-severity pattern is consulted only when the primary
pattern `#<n> SEVERITY title` has no match in the session stdout; when the
primary pattern has at least one match the issues list is exactly the
list of primary matches, so no bracketed match is ever merged in. -/
theorem issues_primary_never_merged (stdout : List Char) :
    (reFinditer primAt stdout ≠ [] →
      (parse_session_results stdout).issues = reFinditer primAt stdout) ∧
    (reFinditer primAt stdout = [] →
      (parse_session_results stdout).issues = reFinditer bracketAt stdout) := by
  constructor
  · intro h
    simp only [parse_session_results, parse_issues]
    rw [if_neg (by simpa using h)]
  · intro h
    simp only [parse_session_results, parse_issues]
    rw [if_pos (by simpa using h)]

/-- C1 witness: a stdout containing both conventions — the primary
matches are returned and the bracketed match is not merged in, even
though the bracketed pattern alone would have matched. -/
theorem issues_primary_never_merged_witness :
    (parse_session_results
      ("#1 CRITICAL Disk full\n#2 HIGH Memory leak\n[LOW] Clock skew".data)).issues =
      reFinditer primAt
        ("#1 CRITICAL Disk full\n#2 HIGH Memory leak\n[LOW] Clock skew".data) ∧
    reFinditer primAt
        ("#1 CRITICAL Disk full\n#2 HIGH Memory leak\n[LOW] Clock skew".data) =
      [{ severity := "CRITICAL", title := "Disk full" },
       { severity := "HIGH", title := "Memory leak" }] ∧
    reFinditer bracketAt
        ("#1 CRITICAL Disk full\n#2 HIGH Memory leak\n[LOW] Clock skew".data) =
      [{ severity := "LOW", title := "Clock skew" }] :=
  ⟨(issues_primary_never_merged
      ("#1 CRITICAL Disk full\n#2 HIGH Memory leak\n[LOW] Clock skew".data)).1
      (by decide), by decide, by decide⟩

/-! ### Claim C7 -/

/-- C7: in the header-driven registry file, a column lookup whose name is
absent from the header, or whose index lies beyond the row's length,
yields the declared default instead of failing; with the relevant headers
absent a built entry carries "MEDIUM" in the severity slot and "false" in
the on-site slot; and a data row with fewer than 4 columns is silently
skipped. -/
theorem registry_header_defaults :
    (∀ (m : List (String × Nat)) (parts : List String) (name dflt : String),
      (colMapLookup m name = none ∨
        ∃ i, colMapLookup m name = some i ∧ parts.length ≤ i) →
      colGet m parts name dflt = dflt) ∧
    (∀ (l : String) (rest : List String) (m : List (String × Nat)),
      pyStrip l.data ≠ [] → pyStartsHash (pyStrip l.data) = false →
      ((splitOnChar '\t' (pyStrip l.data)).map
        (fun cs => (⟨cs⟩ : String))).length < 4 →
      regGo (l :: rest) (some m) = regGo rest (some m)) ∧
    (∀ (m : List (String × Nat)) (parts : List String),
      colMapLookup m "severity" = none →
      colMapLookup m "onSiteServiceRequired" = none →
      mkRegEntry m parts = SigEntry.fromRegistry
        (colGet m parts "name" "") (colGet m parts "module" "") "MEDIUM"
        (colGet m parts "description" "") (colGet m parts "description" "")
        (colGet m parts "troubleshootingSteps" "") ""
        (colGet m parts "module" "") (colGet m parts "errorType" "") "false") := by
  refine ⟨?_, ?_, ?_⟩
  · intro m parts name dflt h
    rcases h with h | ⟨i, hi, hlen⟩
    · simp [colGet, h]
    · simp only [colGet, hi]
      exact List.getD_eq_default parts dflt hlen
  · intro l rest m h1 h2 h3
    simp only [regGo]
    rw [if_neg (by
      simp only [Bool.or_eq_true, List.isEmpty_iff, h2]
      rintro (h | h)
      · exact h1 h
      · cases h)]
    rw [if_neg (by omega)]
    simp
  · intro m parts hsev hos
    simp [mkRegEntry, colGet, hsev, hos]

/-- C7 witness: the three parts of the theorem applied at concrete rows —
an index beyond the row yields the default, a short row is skipped, and
missing severity and on-site headers produce "MEDIUM" and "false". -/
theorem registry_header_defaults_witness :
    colGet [("severity", 5)] ["a", "b"] "severity" "MEDIUM" = "MEDIUM" ∧
    regGo ["x\ty"] (some [("name", 0)]) = regGo [] (some [("name", 0)]) ∧
    mkRegEntry [("name", 0)] ["boom"] = SigEntry.fromRegistry
      (colGet [("name", 0)] ["boom"] "name" "")
      (colGet [("name", 0)] ["boom"] "module" "") "MEDIUM"
      (colGet [("name", 0)] ["boom"] "description" "")
      (colGet [("name", 0)] ["boom"] "description" "")
      (colGet [("name", 0)] ["boom"] "troubleshootingSteps" "") ""
      (colGet [("name", 0)] ["boom"] "module" "")
      (colGet [("name", 0)] ["boom"] "errorType" "") "false" :=
  ⟨registry_header_defaults.1 [("severity", 5)] ["a", "b"] "severity" "MEDIUM"
      (Or.inr ⟨5, by decide, by decide⟩),
   registry_header_defaults.2.1 "x\ty" [] [("name", 0)]
      (by decide) (by decide) (by decide),
   registry_header_defaults.2.2 [("name", 0)] ["boom"] (by decide) (by decide)⟩

lemma procLines_bound (sv ss cp fb : String) (maxR : Int) :
    ∀ (ls : List (List Char)) (acc : List Hit), (acc.length : Int) < maxR →
      ((procLines sv ss cp fb maxR ls acc).1.length : Int) ≤ maxR ∧
      ((procLines sv ss cp fb maxR ls acc).2 = false →
        ((procLines sv ss cp fb maxR ls acc).1.length : Int) < maxR) := by
  intro ls
  induction ls with
  | nil => intro acc h; exact ⟨le_of_lt h, fun _ => h⟩
  | cons line ls ih =>
    intro acc h
    simp only [procLines]
    split_ifs with h1 h2 h3 h4
    · exact ih acc h
    · exact ih acc h
    · exact ih acc h
    · refine ⟨?_, ?_⟩
      · simp only [List.length_append, List.length_cons, List.length_nil]
        push_cast
        omega
      · intro hfalse
        cases hfalse
    · refine ih (acc ++ [{ file := some fb, line := ⟨line.take 300⟩ }]) ?_
      simp only [not_le] at h4
      exact h4

lemma procFiles_bound (grep : String → String → Option String)
    (pat sv ss cp : String) (maxR : Int) :
    ∀ (fs : List String) (acc : List Hit), (acc.length : Int) < maxR →
      ((procFiles grep pat sv ss cp maxR fs acc).length : Int) ≤ maxR := by
  intro fs
  induction fs with
  | nil => intro acc h; exact le_of_lt h
  | cons f rest ih =>
    intro acc h
    simp only [procFiles]
    cases hg : grep pat f with
    | none => exact ih acc h
    | some out =>
      have hlb := procLines_bound sv ss cp f maxR
        (splitOnChar '\n' (pyStrip out.data)) acc h
      rcases hpl : procLines sv ss cp f maxR
          (splitOnChar '\n' (pyStrip out.data)) acc with ⟨acc2, stop⟩
      rw [hpl] at hlb
      cases stop with
      | true =>
        simp only [hpl]
        exact hlb.1
      | false =>
        simp only [hpl]
        exact ih acc2 (hlb.2 rfl)

/-! ### Claim C2 -/

/-- C2 (amended): for every cap of at least 1, the search returns at most
`maxResults` hits however many lines match across all files; and the
result is the same for any two directory listings that are permutations
of each other, because the files are visited in sorted (lexical) order —
for a cap of 0 or less the first matching line is still returned (see the
counterexample), which is the only amendment. -/
theorem search_logs_cap_and_order (grep : String → String → Option String)
    (se : Bool) (pd : Option (List String))
    (pattern severity component a b : String) (maxR : Int) (hmax : 1 ≤ maxR) :
    ((search_logs grep se pd pattern severity component a b maxR).length : Int) ≤ maxR ∧
    (∀ fs fs' : List String, fs.Perm fs' →
      search_logs grep se (some fs) pattern severity component a b maxR =
        search_logs grep se (some fs') pattern severity component a b maxR) := by
  constructor
  · unfold search_logs
    cases se with
    | false =>
      simp only [Bool.false_eq_true, if_false, List.length_nil, Int.natCast_zero]
      omega
    | true =>
      simp only [if_pos trivial]
      cases pd with
      | none =>
        simp only [List.length_cons, List.length_nil]
        omega
      | some files =>
        refine procFiles_bound grep pattern severity _ component maxR _ [] ?_
        simp only [List.length_nil, Int.natCast_zero]
        omega
  · intro fs fs' hperm
    unfold search_logs
    cases se with
    | false => rfl
    | true =>
      have hsort : List.insertionSort (fun x y : String => x ≤ y) fs =
          List.insertionSort (fun x y : String => x ≤ y) fs' :=
        List.eq_of_perm_of_sorted
          ((List.perm_insertionSort _ fs).trans
            (hperm.trans (List.perm_insertionSort _ fs').symm))
          (List.sorted_insertionSort _ fs) (List.sorted_insertionSort _ fs')
      simp only [hsort]

/-- C2 counterexample to the claim as stated: with `maxResults = 0` a
single matching line is still returned, so the result exceeds the cap. -/
theorem search_logs_cap_counterexample :
    (search_logs cexGrep true (some ["a.parsed"]) "alpha" "" "" "" "" 0).length = 1 ∧
    ¬ (((search_logs cexGrep true (some ["a.parsed"]) "alpha" "" "" "" "" 0).length : Int) ≤ 0) := by
  constructor
  · decide
  · decide

/-- C2 witness: the amended theorem applied at a concrete cap of 5 and at
two permuted two-file listings. -/
theorem search_logs_cap_and_order_witness :
    ((search_logs cexGrep true (some ["a.parsed", "b.parsed"]) "alpha" "" "" "" "" 5).length : Int) ≤ 5 ∧
    search_logs cexGrep true (some ["b.parsed", "a.parsed"]) "alpha" "" "" "" "" 5 =
      search_logs cexGrep true (some ["a.parsed", "b.parsed"]) "alpha" "" "" "" "" 5 :=
  ⟨(search_logs_cap_and_order cexGrep true (some ["a.parsed", "b.parsed"])
      "alpha" "" "" "" "" 5 (by decide)).1,
   (search_logs_cap_and_order cexGrep true (some ["b.parsed", "a.parsed"])
      "alpha" "" "" "" "" 5 (by decide)).2 ["b.parsed", "a.parsed"]
      ["a.parsed", "b.parsed"] (by decide)⟩

lemma procLines_sevStr_empty (sv cp fb : String) (maxR : Int) :
    ∀ (ls : List (List Char)) (acc : List Hit),
      procLines sv "" cp fb maxR ls acc = procLines "" "" cp fb maxR ls acc := by
  intro ls
  induction ls with
  | nil => intro acc; rfl
  | cons line ls ih =>
    intro acc
    simp only [procLines]
    have hl : ∀ s' : String,
        ((!(s' == "")) && (!(("" : String) == "")) &&
          !(listContains line (String.data ""))) = false := by
      intro s'
      simp
    rw [hl sv, hl ""]
    by_cases he : line.isEmpty
    · simp only [if_pos he, ih]
    · simp only [if_neg he, Bool.false_eq_true, if_false, ih]

lemma procFiles_sevStr_empty (grep : String → String → Option String)
    (pat sv cp : String) (maxR : Int) :
    ∀ (fs : List String) (acc : List Hit),
      procFiles grep pat sv "" cp maxR fs acc =
        procFiles grep pat "" "" cp maxR fs acc := by
  intro fs
  induction fs with
  | nil => intro acc; rfl
  | cons f rest ih =>
    intro acc
    simp only [procFiles]
    cases hg : grep pat f with
    | none => exact ih acc
    | some out =>
      rcases hpl : procLines sv "" cp f maxR
          (splitOnChar '\n' (pyStrip out.data)) acc with ⟨acc2, stop⟩
      have hpl2 : procLines "" "" cp f maxR
          (splitOnChar '\n' (pyStrip out.data)) acc = (acc2, stop) :=
        (procLines_sevStr_empty sv cp f maxR
          (splitOnChar '\n' (pyStrip out.data)) acc).symm.trans hpl
      cases stop with
      | true => simp only [hpl, hpl2]
      | false =>
        simp only [hpl, hpl2]
        exact ih acc2

/-! ### Claim C10 -/

/-- C10: a severity argument whose upper-cased value is not one of E, W,
I, C or N maps to an empty marker string, which disables the severity
check entirely: the search returns exactly what it would return with no
severity given, for every pattern, component and cap. -/
theorem search_logs_unknown_severity (grep : String → String → Option String)
    (se : Bool) (pd : Option (List String))
    (pattern severity component a b : String) (maxR : Int)
    (h : pyUpper severity ∉ (["E", "W", "I", "C", "N"] : List String)) :
    search_logs grep se pd pattern severity component a b maxR =
      search_logs grep se pd pattern "" component a b maxR := by
  unfold search_logs
  cases se with
  | false => rfl
  | true =>
    cases pd with
    | none => rfl
    | some files =>
      have hs : (if severity = "" then "" else sevMapGet (pyUpper severity)) = "" := by
        by_cases hse : severity = ""
        · simp [hse]
        · simp only [List.mem_cons, List.not_mem_nil, or_false, not_or] at h
          obtain ⟨h1, h2, h3, h4, h5⟩ := h
          simp only [if_neg hse, sevMapGet, if_neg h1, if_neg h2, if_neg h3,
            if_neg h4, if_neg h5]
      rw [hs]
      simp only [if_pos rfl]
      exact procFiles_sevStr_empty grep pattern severity component maxR _ []

/-- C10 witness: the severity string "verbose" (upper-cased "VERBOSE")
leaves the search identical to a search with no severity filter. -/
theorem search_logs_unknown_severity_witness :
    search_logs cexGrep true (some ["a.parsed"]) "alpha" "verbose" "" "" "" 10 =
      search_logs cexGrep true (some ["a.parsed"]) "alpha" "" "" "" "" 10 :=
  search_logs_unknown_severity cexGrep true (some ["a.parsed"]) "alpha"
    "verbose" "" "" "" 10 (by decide)

lemma stripLit_append : ∀ (l r : List Char), stripLit l (l ++ r) = some r := by
  intro l
  induction l with
  | nil => intro r; rfl
  | cons c cs ih =>
    intro r
    simp only [List.cons_append, stripLit, beq_self_eq_true, if_pos]
    exact ih r

lemma pyIsSpace_eq_false_of_digit (c : Char) (h : pyIsDigit c = true) :
    pyIsSpace c = false := by
  simp only [pyIsDigit, Bool.and_eq_true, decide_eq_true_eq] at h
  simp only [pyIsSpace, Bool.or_eq_false_iff, beq_eq_false_iff_ne, ne_eq]
  omega

lemma reSearch_append {α : Type} (m : List Char → Option α) (pre suf : List Char)
    (r : α) (hpre : ∀ i, i < pre.length → m ((pre ++ suf).drop i) = none)
    (hsuf : m suf = some r) :
    reSearch m (pre ++ suf) = some r := by
  induction pre with
  | nil =>
    cases suf with
    | nil => simpa [reSearch] using hsuf
    | cons c t =>
      simp only [List.nil_append, reSearch, hsuf]
  | cons c p ih =>
    have h0 := hpre 0 (by simp)
    simp only [List.drop_zero] at h0
    simp only [List.cons_append] at h0 ⊢
    rw [reSearch, h0]
    exact ih (fun i hi => by
      have := hpre (i + 1) (by simpa using Nat.succ_lt_succ hi)
      simpa using this)

lemma health1At_mk1 (ds : List Char) (g : Char) (post : List Char)
    (hds : ∀ c ∈ ds, pyIsDigit c = true) (hne : ds ≠ [])
    (hg : g ∈ (['A', 'B', 'C', 'D', 'E', 'F'] : List Char)) :
    health1At (mkHealth1 ds g ++ post) =
      some { score := digitsVal ds, grade := g } := by
  obtain ⟨d, ds', rfl⟩ : ∃ d ds', ds = d :: ds' := by
    cases ds with
    | nil => exact absurd rfl hne
    | cons d t => exact ⟨d, t, rfl⟩
  have hd : pyIsDigit d = true := hds d (List.mem_cons_self d ds')
  have hds' : ∀ c ∈ ds', pyIsDigit c = true :=
    fun c hc => hds c (List.mem_cons_of_mem d hc)
  have hdns : pyIsSpace d = false := pyIsSpace_eq_false_of_digit d hd
  have hgl : g = 'A' ∨ g = 'B' ∨ g = 'C' ∨ g = 'D' ∨ g = 'E' ∨ g = 'F' := by
    simpa using hg
  have hgA : (65 ≤ g.toNat && g.toNat ≤ 70) = true := by
    rcases hgl with rfl | rfl | rfl | rfl | rfl | rfl <;> decide
  have hgns : pyIsSpace g = false := by
    rcases hgl with rfl | rfl | rfl | rfl | rfl | rfl <;> decide
  have hsp : pyIsSpace ' ' = true := by decide
  have hslash : pyIsSpace '/' = false := by decide
  have hone : pyIsSpace '1' = false := by decide
  have hG : pyIsSpace 'G' = false := by decide
  have hslashd : pyIsDigit '/' = false := by decide
  simp only [health1At, mkHealth1, lit100, litGrade, List.append_eq,
    List.append_assoc, List.cons_append, List.nil_append, stripLit_append,
    stripLit, List.dropWhile_cons, List.takeWhile_cons, hsp, hdns, hd, hslash,
    hone, hG, hslashd, hgns, hgA, List.takeWhile_append_of_pos hds',
    beq_self_eq_true, if_true, List.isEmpty_cons, List.length_cons,
    List.drop_succ_cons, List.drop_left, List.append_nil, Bool.false_eq_true,
    if_false]

lemma health2At_mk2 (ds : List Char) (g : Char) (post : List Char)
    (hds : ∀ c ∈ ds, pyIsDigit c = true) (hne : ds ≠ [])
    (hg : g ∈ (['A', 'B', 'C', 'D', 'E', 'F'] : List Char)) :
    health2At (mkHealth2 ds g ++ post) =
      some { score := digitsVal ds, grade := g } := by
  obtain ⟨d, ds', rfl⟩ : ∃ d ds', ds = d :: ds' := by
    cases ds with
    | nil => exact absurd rfl hne
    | cons d t => exact ⟨d, t, rfl⟩
  have hd : pyIsDigit d = true := hds d (List.mem_cons_self d ds')
  have hds' : ∀ c ∈ ds', pyIsDigit c = true :=
    fun c hc => hds c (List.mem_cons_of_mem d hc)
  have hdns : pyIsSpace d = false := pyIsSpace_eq_false_of_digit d hd
  have hgl : g = 'A' ∨ g = 'B' ∨ g = 'C' ∨ g = 'D' ∨ g = 'E' ∨ g = 'F' := by
    simpa using hg
  have hgA : (65 ≤ g.toNat && g.toNat ≤ 70) = true := by
    rcases hgl with rfl | rfl | rfl | rfl | rfl | rfl <;> decide
  have hsp : pyIsSpace ' ' = true := by decide
  have hpar : pyIsSpace '(' = false := by decide
  have hslashd : pyIsDigit '/' = false := by decide
  simp only [health2At, mkHealth2, litSlash100, List.append_eq,
    List.append_assoc, List.cons_append, List.nil_append, stripLit_append,
    stripLit, List.dropWhile_cons, List.takeWhile_cons, hsp, hdns, hd, hpar,
    hslashd, hgA, List.takeWhile_append_of_pos hds', beq_self_eq_true,
    if_true, List.isEmpty_cons, List.length_cons, List.drop_succ_cons,
    List.drop_left, List.append_nil, Bool.false_eq_true, if_false]

/-! ### Claim C6 -/

/-- C6: a stdout containing the layout `Health Score: N/100 Grade: G`
(with no earlier first-layout match) yields the health record with score N
and grade G; a stdout containing `Health Score: N/100 (G)` and no
first-layout match anywhere yields the same record via the fallback, the
first layout being consulted first; and when neither layout matches
anywhere the health field is left unset (`none`) rather than failing. -/
theorem health_two_layouts :
    (∀ (pre post ds : List Char) (g : Char),
      (∀ c ∈ ds, pyIsDigit c = true) → ds ≠ [] →
      g ∈ (['A', 'B', 'C', 'D', 'E', 'F'] : List Char) →
      (∀ i, i < pre.length →
        health1At ((pre ++ (mkHealth1 ds g ++ post)).drop i) = none) →
      parse_health (pre ++ (mkHealth1 ds g ++ post)) =
        some { score := digitsVal ds, grade := g }) ∧
    (∀ (pre post ds : List Char) (g : Char),
      (∀ c ∈ ds, pyIsDigit c = true) → ds ≠ [] →
      g ∈ (['A', 'B', 'C', 'D', 'E', 'F'] : List Char) →
      reSearch health1At (pre ++ (mkHealth2 ds g ++ post)) = none →
      (∀ i, i < pre.length →
        health2At ((pre ++ (mkHealth2 ds g ++ post)).drop i) = none) →
      parse_health (pre ++ (mkHealth2 ds g ++ post)) =
        some { score := digitsVal ds, grade := g }) ∧
    (∀ s : List Char,
      reSearch health1At s = none → reSearch health2At s = none →
      parse_health s = none) := by
  refine ⟨?_, ?_, ?_⟩
  · intro pre post ds g hds hne hg hpre
    have h1 : reSearch health1At (pre ++ (mkHealth1 ds g ++ post)) =
        some { score := digitsVal ds, grade := g } :=
      reSearch_append health1At pre (mkHealth1 ds g ++ post) _ hpre
        (health1At_mk1 ds g post hds hne hg)
    simp [parse_health, h1]
  · intro pre post ds g hds hne hg hnone1 hpre
    have h2 : reSearch health2At (pre ++ (mkHealth2 ds g ++ post)) =
        some { score := digitsVal ds, grade := g } :=
      reSearch_append health2At pre (mkHealth2 ds g ++ post) _ hpre
        (health2At_mk2 ds g post hds hne hg)
    simp [parse_health, hnone1, h2]
  · intro s h1 h2
    simp [parse_health, h1, h2]

/-- C6 witness: both example layouts of the spec, embedded in surrounding
text, yield `{score := 87, grade := B}`, and a stdout with no health line
leaves the field unset. -/
theorem health_two_layouts_witness :
    parse_health (("x\n".data) ++ (mkHealth1 ['8', '7'] 'B' ++ ("\nmore".data))) =
      some { score := 87, grade := 'B' } ∧
    parse_health (("y ".data) ++ (mkHealth2 ['8', '7'] 'B' ++ [])) =
      some { score := 87, grade := 'B' } ∧
    parse_health ("no health here".data) = none :=
  ⟨health_two_layouts.1 ("x\n".data) ("\nmore".data) ['8', '7'] 'B'
      (by decide) (by decide) (by decide) (by decide),
   health_two_layouts.2.1 ("y ".data) [] ['8', '7'] 'B'
      (by decide) (by decide) (by decide) (by decide) (by decide),
   health_two_layouts.2.2 ("no health here".data) (by decide) (by decide)⟩
